import Mathlib

/-!
Shallow embedding of the exam-assessment backend
(`exam-paper.service.ts` and `ManualAssessmentService`):
the CSV question parser, the upload pipeline, question deletion with
renumbering, publishing, the answer-stripping projection, and the manual
assessment update path, together with theorems about them.
-/

/-- Decidable equality for `Except`, so concrete service results can be
checked by `decide`. -/
instance {ε α : Type} [DecidableEq ε] [DecidableEq α] : DecidableEq (Except ε α) :=
  fun x y =>
    match x, y with
    | .ok a, .ok b =>
      if h : a = b then .isTrue (by rw [h]) else .isFalse (by simp [h])
    | .error a, .error b =>
      if h : a = b then .isTrue (by rw [h]) else .isFalse (by simp [h])
    | .ok _, .error _ => .isFalse (by simp)
    | .error _, .ok _ => .isFalse (by simp)

namespace CIU

/-! ## JavaScript-semantics helpers

String primitives are modelled on the character lists underlying `String`, so
that every definition reduces inside the kernel and witnesses can be settled
by `decide`. -/

/-- The whitespace characters JS string trimming removes (basic set). -/
def isJsWhitespace (c : Char) : Bool :=
  c = ' ' ∨ c = '\t' ∨ c = '\n' ∨ c = '\r'

/-- Trim whitespace from both ends of a character list. -/
def trimChars (l : List Char) : List Char :=
  ((l.dropWhile isJsWhitespace).reverse.dropWhile isJsWhitespace).reverse

/-- Model of JS `s.trim()`. -/
def jsTrim (s : String) : String := String.mk (trimChars s.data)

/-- Model of the JS global-regex replace in `parseCsv` that deletes every
backslash character. -/
def removeBackslashes (s : String) : String :=
  String.mk (s.data.filter (fun c => ¬ c = '\\'))

/-- Model of JS `s.startsWith(c)` for a one-character prefix. -/
def jsStartsWithChar (s : String) (c : Char) : Bool :=
  match s.data with
  | [] => false
  | d :: _ => d = c

/-- Model of JS `s.endsWith(c)` for a one-character suffix. -/
def jsEndsWithChar (s : String) (c : Char) : Bool :=
  s.data.getLast? = some c

/-- Model of JS `s.endsWith(suffix)`. -/
def jsEndsWith (s suffix : String) : Bool :=
  suffix.data.isSuffixOf s.data

/-- Split a character list on a separator character. -/
def splitOnCharList (sep : Char) : List Char → List (List Char)
  | [] => [[]]
  | c :: rest =>
    if c = sep then
      [] :: splitOnCharList sep rest
    else
      match splitOnCharList sep rest with
      | [] => [[c]]
      | piece :: pieces => (c :: piece) :: pieces

/-- Model of JS `s.split(c)` for a one-character separator. -/
def jsSplitOnChar (s : String) (sep : Char) : List String :=
  (splitOnCharList sep s.data).map String.mk

/-- Concatenate a list of strings. -/
def joinStrings (l : List String) : String :=
  l.foldl (fun acc s => acc ++ s) ""

/-- Join strings with a separator between consecutive elements. -/
def joinWithComma : List String → String
  | [] => ""
  | [s] => s
  | s :: rest => s ++ "," ++ joinWithComma rest

/-- Model of the JS `x || d` fallback for an optional string field:
`undefined` and the empty string are falsy. -/
def jsOrStrOpt : Option String → String → String
  | none, d => d
  | some s, d => if s = "" then d else s

/-- Model of the JS `s || d` fallback on a string value already known to be
a string: only the empty string is falsy. -/
def jsOrStr (s d : String) : String := if s = "" then d else s

/-- Model of the JS `n || d` fallback for an optional numeric field:
`undefined` and `0` are falsy. -/
def jsOrInt : Option Int → Int → Int
  | none, d => d
  | some n, d => if n = 0 then d else n

/-- Model of JS `Boolean(x)` on an optional boolean field:
`Boolean(undefined) = false`. -/
def jsBoolean : Option Bool → Bool
  | none => false
  | some b => b

/-- Value of a digit list read in base ten. -/
def digitsVal (l : List Char) : Int :=
  l.foldl (fun n c => n * 10 + ((c.toNat - 48 : Nat) : Int)) 0

/-- Model of JS `Number()` applied to a time component produced by
`split(':')`: the empty string coerces to `0`, a (signed) digit string to its
value, anything else to NaN, which we represent as `none`. -/
def jsNumber (s : String) : Option Int :=
  match trimChars s.data with
  | [] => some 0
  | '-' :: rest =>
    if rest ≠ [] ∧ rest.all (fun c => c.isDigit) then some (-(digitsVal rest)) else none
  | l =>
    if l.all (fun c => c.isDigit) then some (digitsVal l) else none

/-- Model of JS `parseInt`: after trimming and an optional sign, the longest
digit prefix is taken; no digits at all gives NaN (`none`). -/
def parseIntJS (s : String) : Option Int :=
  let t0 := trimChars s.data
  let neg := match t0 with | '-' :: _ => true | _ => false
  let t := match t0 with
    | '-' :: rest => rest
    | '+' :: rest => rest
    | l => l
  let ds := t.takeWhile (fun c => c.isDigit)
  if ds.isEmpty then none
  else some (if neg then -(digitsVal ds) else digitsVal ds)

/-! ## A JSON parser for arrays of strings

`JSON.parse` in the service is only ever applied to the repaired options
string and its result is stored as the question's option list; we model it by
an executable parser for JSON arrays of string literals (the shape the spec
and all working inputs use).  Inputs of any other JSON shape are outside the
model and map to `none`. -/

/-- Parse the body of a JSON string literal (the opening quote already
consumed), handling the standard single-character escapes; returns the decoded
characters and the rest of the input. -/
def parseJsonString : List Char → Option (List Char × List Char)
  | [] => none
  | '"' :: rest => some ([], rest)
  | '\\' :: rest =>
    match rest with
    | [] => none
    | c :: rest2 =>
      match (match c with
             | '"' => some '"'
             | '\\' => some '\\'
             | '/' => some '/'
             | 'n' => some '\n'
             | 't' => some '\t'
             | 'r' => some '\r'
             | 'b' => some (Char.ofNat 8)
             | 'f' => some (Char.ofNat 12)
             | _ => none) with
      | none => none
      | some e =>
        match parseJsonString rest2 with
        | none => none
        | some (cs, r) => some (e :: cs, r)
  | c :: rest =>
    match parseJsonString rest with
    | none => none
    | some (cs, r) => some (c :: cs, r)

/-- Skip JSON whitespace. -/
def skipJsonWs : List Char → List Char
  | [] => []
  | c :: rest =>
    if c = ' ' ∨ c = '\t' ∨ c = '\n' ∨ c = '\r' then skipJsonWs rest else c :: rest

/-- Parse the comma-separated string elements of a JSON array, positioned just
after `[` (or after a comma).  The fuel argument only bounds recursion; each
step consumes at least one input character, so input length suffices. -/
def parseJsonStringElems (fuel : Nat) (cs : List Char) (acc : List String) :
    Option (List String) :=
  match fuel with
  | 0 => none
  | fuel + 1 =>
    match skipJsonWs cs with
    | '"' :: rest =>
      match parseJsonString rest with
      | none => none
      | some (str, r) =>
        match skipJsonWs r with
        | ',' :: r2 => parseJsonStringElems fuel r2 (acc ++ [String.mk str])
        | ']' :: r2 =>
          if (skipJsonWs r2).isEmpty then some (acc ++ [String.mk str]) else none
        | _ => none
    | _ => none

/-- Model of `JSON.parse` restricted to arrays of strings. -/
def jsonParseStringArray (s : String) : Option (List String) :=
  match skipJsonWs s.toList with
  | '[' :: rest =>
    match skipJsonWs rest with
    | ']' :: r2 => if (skipJsonWs r2).isEmpty then some [] else none
    | _ => parseJsonStringElems (rest.length + 1) rest []
  | _ => none

/-! ## CSV rows and `parseCsv` -/

/-- A row as delivered by `csv-parser`: the fields the service reads.  Absent
columns are `none` (JS `undefined`). -/
structure CsvRow where
  content : Option String
  answer : Option String
  options : Option String
  f3 : Option String
  f4 : Option String
  f5 : Option String
  f6 : Option String
  f7 : Option String
deriving DecidableEq, Repr

/-- A parsed question record as pushed into `results` by `parseCsv`. -/
structure QuestionRecord where
  content : Option String
  answer : String
  options : List String
deriving DecidableEq, Repr

/-- The values the row holds for the option fields (`options`, `_3`, `_4`,
`_5`, `_6`, `_7`) in their fixed order. -/
def optionFieldValues (r : CsvRow) : List (Option String) :=
  [r.options, r.f3, r.f4, r.f5, r.f6, r.f7]

/-- The combined options string of `parseCsv`: map the row over the option
fields, filter(Boolean), join, strip backslashes, trim. -/
def combinedOptions (r : CsvRow) : String :=
  jsTrim (removeBackslashes (joinStrings
    (((optionFieldValues r).filterMap id).filter (fun s => s ≠ ""))))

/-- The bracket repair from `parseCsv`: prepend `[` when missing, then append
`]` when (still) missing. -/
def repairBrackets (s : String) : String :=
  let s1 := if jsStartsWithChar s '[' then s else "[" ++ s
  if jsEndsWithChar s1 ']' then s1 else s1 ++ "]"

/-- One per-row data step of `parseCsv`: a row yields a record unless its
repaired options string fails to JSON-parse, in which case the error is caught
(logged) and the row contributes nothing. -/
def parseRow (r : CsvRow) : Option QuestionRecord :=
  match jsonParseStringArray (repairBrackets (combinedOptions r)) with
  | some opts => some { content := r.content, answer := jsOrStrOpt r.answer "", options := opts }
  | none => none

/-- The function `parseCsv`: the surviving rows, in file order. -/
def parseCsv (rows : List CsvRow) : List QuestionRecord :=
  rows.filterMap parseRow

/-! ## Dates and the strict `moment` parse -/

/-- A calendar timestamp; `moment` values are modelled by their broken-down
components. -/
structure DateTime where
  year : Nat
  month : Nat
  day : Nat
  hour : Nat
  minute : Nat
  second : Nat
deriving DecidableEq, Repr

/-- Value of a decimal digit character. -/
def dig (c : Char) : Nat := c.toNat - 48

/-- Days in a month of the Gregorian calendar. -/
def daysInMonth (year month : Nat) : Nat :=
  if month = 2 then
    if (year % 4 = 0 ∧ year % 100 ≠ 0) ∨ year % 400 = 0 then 29 else 28
  else if month = 4 ∨ month = 6 ∨ month = 9 ∨ month = 11 then 30
  else 31

/-- Model of the strict `moment` parse against `YYYY-MM-DD HH:mm:ss`: the string
must match the format character for character and denote a real calendar
datetime; the parse is strict, with no lenient or partial fallback. -/
def strictParseDateTime (s : String) : Option DateTime :=
  match s.toList with
  | [y1, y2, y3, y4, '-', m1, m2, '-', d1, d2, ' ', h1, h2, ':', n1, n2, ':', e1, e2] =>
    if y1.isDigit ∧ y2.isDigit ∧ y3.isDigit ∧ y4.isDigit ∧ m1.isDigit ∧ m2.isDigit ∧
        d1.isDigit ∧ d2.isDigit ∧ h1.isDigit ∧ h2.isDigit ∧ n1.isDigit ∧ n2.isDigit ∧
        e1.isDigit ∧ e2.isDigit then
      let yr := dig y1 * 1000 + dig y2 * 100 + dig y3 * 10 + dig y4
      let mo := dig m1 * 10 + dig m2
      let da := dig d1 * 10 + dig d2
      let ho := dig h1 * 10 + dig h2
      let mi := dig n1 * 10 + dig n2
      let se := dig e1 * 10 + dig e2
      if 1 ≤ mo ∧ mo ≤ 12 ∧ 1 ≤ da ∧ da ≤ daysInMonth yr mo ∧
          ho ≤ 23 ∧ mi ≤ 59 ∧ se ≤ 59 then
        some ⟨yr, mo, da, ho, mi, se⟩
      else none
    else none
  | _ => none

/-- Model of `moment(d).set(hour, minute, second)` with in-range components
(out-of-range overflow bubbling of the underlying JS `Date` is not modelled;
no claim depends on the numeric value of the resulting timestamp). -/
def momentSetHMS (d : DateTime) (h m s : Int) : DateTime :=
  { d with hour := h.toNat, minute := m.toNat, second := s.toNat }

/-- Zero-pad to two digits. -/
def pad2 (n : Nat) : String := if n < 10 then "0" ++ toString n else toString n

/-- Zero-pad to four digits. -/
def pad4 (n : Nat) : String :=
  if n < 10 then "000" ++ toString n
  else if n < 100 then "00" ++ toString n
  else if n < 1000 then "0" ++ toString n
  else toString n

/-- Render a timestamp in the `YYYY-MM-DD HH:mm:ss` display format. -/
def formatDateTime (d : DateTime) : String :=
  pad4 d.year ++ "-" ++ pad2 d.month ++ "-" ++ pad2 d.day ++ " " ++
    pad2 d.hour ++ ":" ++ pad2 d.minute ++ ":" ++ pad2 d.second

/-- Render a time of day in the `HH:mm:ss` display format. -/
def formatTimeHMS (d : DateTime) : String :=
  pad2 d.hour ++ ":" ++ pad2 d.minute ++ ":" ++ pad2 d.second

/-! ## Persistent data model -/

/-- A persisted question row. -/
structure Question where
  id : Nat
  assessmentId : Nat
  questionNumber : Nat
  content : Option String
  options : List String
  answer : String
deriving DecidableEq, Repr

/-- A persisted assessment (`addAssessment`) row. -/
structure Assessment where
  id : Nat
  title : String
  description : String
  courseId : Int
  courseUnit : String
  courseUnitCode : String
  duration : Nat
  scheduledDate : DateTime
  startTime : DateTime
  endTime : DateTime
  createdBy : String
  isDraft : Bool
deriving DecidableEq, Repr

/-- The relational store the service talks to through prisma: courses are
kept as their ids, rows in insertion order, with id counters for fresh rows. -/
structure Store where
  courses : List Int
  assessments : List Assessment
  questions : List Question
  nextAssessmentId : Nat
  nextQuestionId : Nat
deriving DecidableEq, Repr

/-- The exception kinds the service raises (with their messages), plus
unhandled persistence errors that propagate. -/
inductive SvcError where
  | notFound (msg : String)
  | badRequest (msg : String)
  | conflict (msg : String)
  | prismaError (msg : String)
deriving DecidableEq, Repr

/-- The ordering that the persistence layer reads questions back with and the JS
`(a, b) => a.questionNumber - b.questionNumber` comparator use. -/
def byNumber (a b : Question) : Prop := a.questionNumber ≤ b.questionNumber

instance : DecidableRel byNumber := fun _ _ => Nat.decLe _ _

instance : IsTotal Question byNumber := ⟨fun _ _ => Nat.le_total _ _⟩

instance : IsTrans Question byNumber := ⟨fun _ _ _ => Nat.le_trans⟩

/-- Questions as read back with `orderBy: questionNumber asc` (a stable
sort modelling prisma's ordering and the JS stable `Array.sort`). -/
def sortByNumber (l : List Question) : List Question :=
  l.insertionSort byNumber

/-- All questions of one assessment, in store (insertion) order. -/
def questionsOf (st : Store) (assessmentId : Nat) : List Question :=
  st.questions.filter (fun q => q.assessmentId = assessmentId)

/-! ## `uploadExamPaper` -/

/-- The upload DTO.  Fields the code may find absent (`isDraft`) are optional;
`courseId` arrives as a string and goes through `parseInt`. -/
structure UploadExamPaperDto where
  title : String
  description : String
  courseId : String
  courseUnit : String
  courseUnitCode : String
  duration : Nat
  scheduledDate : String
  startTime : String
  endTime : String
  createdBy : String
  isDraft : Option Bool
deriving DecidableEq, Repr

/-- The uploaded file: its declared name and the rows `csv-parser` yields
from its contents. -/
structure UploadedFile where
  originalname : String
  rows : List CsvRow
deriving DecidableEq, Repr

/-- The value returned by a successful upload: the persisted assessment, its
questions ordered by number, and the re-rendered schedule strings. -/
structure UploadResult where
  assessment : Assessment
  questions : List Question
  scheduledDate : String
  startTime : String
  endTime : String
deriving DecidableEq, Repr

/-- The operation `uploadExamPaper`: validate file presence and `.csv` extension, parse,
reject an empty question set, strictly parse the schedule, check the time
strings, then in one transaction create the assessment (connected to its
course) and its questions numbered `index + 1`, and read the result back
ordered by question number.  Errors leave the store untouched (the
transaction rolls back). -/
def uploadExamPaper (st : Store) (file : Option UploadedFile)
    (dto : UploadExamPaperDto) : Store × Except SvcError UploadResult :=
  match file with
  | none => (st, .error (.badRequest "CSV file not provided or incorrect file type"))
  | some f =>
    if ¬ jsEndsWith f.originalname ".csv" then
      (st, .error (.badRequest "CSV file not provided or incorrect file type"))
    else
      let questions := parseCsv f.rows
      if questions.length = 0 then
        (st, .error (.badRequest "No valid questions found in CSV"))
      else
        match strictParseDateTime dto.scheduledDate with
        | none =>
          (st, .error (.badRequest "Invalid scheduled date format. Use YYYY-MM-DD HH:mm:ss."))
        | some sched =>
          let startParts := (jsSplitOnChar dto.startTime ':').map jsNumber
          let endParts := (jsSplitOnChar dto.endTime ':').map jsNumber
          if ¬ (startParts.length = 3 ∧ endParts.length = 3) then
            (st, .error (.badRequest "Invalid time format for startTime or endTime. Use HH:MM:SS."))
          else
            -- `moment(...).set({...})` with a NaN component is invalid.
            match startParts, endParts with
            | [some h1, some n1, some e1], [some h2, some n2, some e2] =>
              let startTime := momentSetHMS sched h1 n1 e1
              let endTime := momentSetHMS sched h2 n2 e2
              -- transaction: create assessment connected to the course
              match parseIntJS dto.courseId with
              | none => (st, .error (.prismaError "connect: course not found"))
              | some cid =>
                if cid ∈ st.courses then
                  let aid := st.nextAssessmentId
                  let assessment : Assessment :=
                    { id := aid, title := dto.title, description := dto.description,
                      courseId := cid, courseUnit := dto.courseUnit,
                      courseUnitCode := dto.courseUnitCode, duration := dto.duration,
                      scheduledDate := sched, startTime := startTime, endTime := endTime,
                      createdBy := dto.createdBy, isDraft := jsBoolean dto.isDraft }
                  let newQs := questions.enum.map (fun p =>
                    { id := st.nextQuestionId + p.1, assessmentId := aid,
                      questionNumber := p.1 + 1, content := p.2.content,
                      options := p.2.options, answer := jsOrStr p.2.answer "" })
                  let st2 : Store :=
                    { st with
                      assessments := st.assessments ++ [assessment],
                      questions := st.questions ++ newQs,
                      nextAssessmentId := aid + 1,
                      nextQuestionId := st.nextQuestionId + newQs.length }
                  let complete := sortByNumber (questionsOf st2 aid)
                  (st2, .ok
                    { assessment := assessment, questions := complete,
                      scheduledDate := formatDateTime sched,
                      startTime := formatTimeHMS startTime,
                      endTime := formatTimeHMS endTime })
                else (st, .error (.prismaError "connect: course not found"))
            | _, _ =>
              (st, .error (.badRequest "Invalid time format for startTime or endTime. Use HH:MM:SS."))

/-! ## `deleteQuestionById` -/

/-- One `prisma.question.update` setting the question number of the row with
the given (unique) id. -/
def updateQuestionNumberById (st : Store) (qid n : Nat) : Store :=
  { st with questions := st.questions.map (fun q =>
      if q.id = qid then { q with questionNumber := n } else q) }

/-- The operation `deleteQuestionById`: look the exam paper up together with its questions
ordered by number, find the question, then in one transaction delete it and
renumber the remaining questions of the snapshot (sorted by their prior
number) as `1, 2, …`. -/
def deleteQuestionById (st : Store) (questionId examPaperId : Nat) :
    Store × Except SvcError String :=
  match st.assessments.find? (fun a => a.id = examPaperId) with
  | none => (st, .error (.notFound "Exam paper not found"))
  | some _ =>
    let fetched := sortByNumber (questionsOf st examPaperId)
    match fetched.find? (fun q => q.id = questionId) with
    | none => (st, .error (.notFound "Question not found in this exam paper"))
    | some _ =>
      -- transaction
      let st1 : Store :=
        { st with questions := st.questions.filter (fun q => ¬ q.id = questionId) }
      let remaining :=
        (fetched.filter (fun q => ¬ q.id = questionId)).insertionSort byNumber
      let st2 := remaining.enum.foldl
        (fun acc p => updateQuestionNumberById acc p.2.id (p.1 + 1)) st1
      (st2, .ok "Question deleted successfully and questions renumbered")

/-! ## `publishExamPaper` -/

/-- The per-row effect of the prisma update in `publishExamPaper`: the row
with the addressed id gets `isDraft := false`, other rows are untouched. -/
def publishAssessmentRow (id : Nat) (b : Assessment) : Assessment :=
  if b.id = id then { b with isDraft := false } else b

/-- The operation `publishExamPaper`: 404 when absent, otherwise set `isDraft := false` and
return the updated row. -/
def publishExamPaper (st : Store) (id : Nat) : Store × Except SvcError Assessment :=
  match st.assessments.find? (fun a => a.id = id) with
  | none => (st, .error (.notFound "Exam paper not found"))
  | some a =>
    ({ st with assessments := st.assessments.map (publishAssessmentRow id) },
     .ok { a with isDraft := false })

/-! ## `allQuestionsNoAnswer` -/

/-- A question record with the `answer` field removed by the rest-spread
projection. -/
structure QuestionNoAnswer where
  id : Nat
  assessmentId : Nat
  questionNumber : Nat
  content : Option String
  options : List String
deriving DecidableEq, Repr

/-- The rest-spread projection dropping the answer field. -/
def dropAnswer (q : Question) : QuestionNoAnswer :=
  { id := q.id, assessmentId := q.assessmentId, questionNumber := q.questionNumber,
    content := q.content, options := q.options }

/-- The operation `allQuestionsNoAnswer`: the assessment's questions ordered by number, 404
when there are none, each record stripped of its `answer` field. -/
def allQuestionsNoAnswer (st : Store) (assessmentId : Nat) :
    Except SvcError (List QuestionNoAnswer) :=
  let questions := sortByNumber (questionsOf st assessmentId)
  if questions.length = 0 then
    .error (.notFound "No questions found for this assessment")
  else
    .ok (questions.map dropAnswer)

/-! ## `ManualAssessmentService` -/

/-- JSON escaping for `JSON.stringify` of a string. -/
def jsonEscapeString (s : String) : String :=
  String.mk (s.data.foldl (fun acc c =>
    acc ++ (if c = '\\' then ['\\', '\\']
            else if c = '"' then ['\\', '"']
            else if c = '\n' then ['\\', 'n']
            else if c = '\t' then ['\\', 't']
            else if c = '\r' then ['\\', 'r']
            else [c])) [])

/-- Serialization of an array of strings, as `JSON.stringify` renders it. -/
def jsonStringifyArray (l : List String) : String :=
  "[" ++ joinWithComma (l.map (fun s => "\"" ++ jsonEscapeString s ++ "\"")) ++ "]"

/-- A persisted `QuestionManual` row (the model's text field is literally
named `questions`; `options` holds the stringified list). -/
structure ManualQuestion where
  id : Nat
  assessmentId : Nat
  questions : String
  options : String
  correctAnswer : String
deriving DecidableEq, Repr

/-- A persisted `manualAssessment` row.  Schedule fields are kept as the
strings the DTO supplies. -/
structure ManualAssessment where
  id : Nat
  title : String
  description : String
  courseId : Int
  courseUnit : String
  courseUnitCode : String
  duration : Int
  scheduledDate : String
  startTime : String
  endTime : String
  createdBy : String
deriving DecidableEq, Repr

/-- An inline question object in a manual assessment DTO. -/
structure QuestionInput where
  questionText : String
  options : List String
  correctAnswer : String
deriving DecidableEq, Repr

/-- The update DTO: every field may be absent. -/
structure UpdateManualAssessmentDto where
  title : Option String
  description : Option String
  courseId : Option Int
  courseUnit : Option String
  courseUnitCode : Option String
  duration : Option Int
  scheduledDate : Option String
  startTime : Option String
  endTime : Option String
  createdBy : Option String
  questions : Option (List QuestionInput)
deriving DecidableEq, Repr

/-- The manual-assessment side of the store. -/
structure MStore where
  assessments : List ManualAssessment
  questions : List ManualQuestion
  nextQuestionId : Nat
deriving DecidableEq, Repr

namespace ManualAssessmentService

/-- The scalar part of the `update` data object: each field falls back to the
stored prior value through JS `||`, so any falsy supplied value keeps the old
one. -/
def updatedAssessment (data : UpdateManualAssessmentDto) (a : ManualAssessment) :
    ManualAssessment :=
  { id := a.id,
    title := jsOrStrOpt data.title a.title,
    description := jsOrStrOpt data.description a.description,
    courseId := jsOrInt data.courseId a.courseId,
    courseUnit := jsOrStrOpt data.courseUnit a.courseUnit,
    courseUnitCode := jsOrStrOpt data.courseUnitCode a.courseUnitCode,
    duration := jsOrInt data.duration a.duration,
    scheduledDate := jsOrStrOpt data.scheduledDate a.scheduledDate,
    startTime := jsOrStrOpt data.startTime a.startTime,
    endTime := jsOrStrOpt data.endTime a.endTime,
    createdBy := jsOrStrOpt data.createdBy a.createdBy }

/-- The related rows the update creates (the mapped question list, or the
empty list when absent), as (text, stringified options, correct answer)
triples. -/
def mappedQuestions (data : UpdateManualAssessmentDto) : List (String × String × String) :=
  match data.questions with
  | some qs => qs.map (fun q => (q.questionText, jsonStringifyArray q.options, q.correctAnswer))
  | none => []

/-- The operation `ManualAssessmentService.update`: 404 when the assessment is absent;
otherwise update the scalar fields (falsy-respecting fallback) and create the
rows derived from the supplied question list as additional related rows — a
prisma nested `create` inside `update` adds rows, it does not replace the
existing ones. -/
def update (st : MStore) (id : Nat) (data : UpdateManualAssessmentDto) :
    MStore × Except SvcError ManualAssessment :=
  match st.assessments.find? (fun a => a.id = id) with
  | none => (st, .error (.notFound "Assessment not found"))
  | some a =>
    let a2 := updatedAssessment data a
    let newRows := (mappedQuestions data).enum.map (fun p =>
      { id := st.nextQuestionId + p.1, assessmentId := id,
        questions := p.2.1, options := p.2.2.1, correctAnswer := p.2.2.2 : ManualQuestion })
    ({ assessments := st.assessments.map (fun b => if b.id = id then a2 else b),
       questions := st.questions ++ newRows,
       nextQuestionId := st.nextQuestionId + newRows.length },
     .ok a2)

end ManualAssessmentService

/-! ## Spec-side description of the CSV row algorithm (for C3)

These definitions follow the specification's words rather than the source:
"concatenate the designated option-bearing fields in fixed order, drop falsy
entries, strip backslashes, trim whitespace; if the result doesn't already
start with `[` prepend one, if it doesn't end with `]` append one; parse the
repaired string as a JSON array of option strings", and "`answer` defaults to
empty string when absent". -/

/-- Spec: concatenate the option-bearing fields in their fixed order, dropping
falsy (absent or empty) entries as they are appended. -/
def specConcatOptionFields (r : CsvRow) : String :=
  [r.options, r.f3, r.f4, r.f5, r.f6, r.f7].foldl
    (fun acc v =>
      match v with
      | none => acc
      | some s => if s = "" then acc else acc ++ s) ""

/-- Spec: prepend `[` if the string does not start with one and append `]` if
it does not end with one (stated as two independent repairs). -/
def specRepairBrackets (s : String) : String :=
  (if jsStartsWithChar s '[' then "" else "[") ++ s ++
    (if jsEndsWithChar s ']' then "" else "]")

/-- Spec: the whole row computation — concatenate, strip backslashes, trim,
repair brackets, JSON-parse as an array of option strings; the answer
defaults to the empty string when absent. -/
def specParseRow (r : CsvRow) : Option QuestionRecord :=
  match jsonParseStringArray
      (specRepairBrackets (jsTrim (removeBackslashes (specConcatOptionFields r)))) with
  | some opts =>
    some { content := r.content, answer := r.answer.getD "", options := opts }
  | none => none

/-! ### Equivalence lemmas for C3 -/

theorem joinStrings_cons (x : String) (xs : List String) :
    joinStrings (x :: xs) = x ++ joinStrings xs := by
  have h : ∀ (l : List String) (acc : String),
      l.foldl (fun a s => a ++ s) acc = acc ++ joinStrings l := by
    intro l
    induction l with
    | nil => intro acc; simp [joinStrings]
    | cons y ys ih =>
      intro acc
      simp only [joinStrings, List.foldl_cons] at *
      rw [ih, ih ("" ++ y), String.empty_append, String.append_assoc]
  simpa [joinStrings] using h xs x

theorem foldl_concat_eq_join (l : List (Option String)) :
    l.foldl
      (fun acc v =>
        match v with
        | none => acc
        | some s => if s = "" then acc else acc ++ s) ""
      = joinStrings ((l.filterMap id).filter (fun s => s ≠ "")) := by
  have h : ∀ (l : List (Option String)) (acc : String),
      l.foldl
        (fun acc v =>
          match v with
          | none => acc
          | some s => if s = "" then acc else acc ++ s) acc
        = acc ++ joinStrings ((l.filterMap id).filter (fun s => s ≠ "")) := by
    intro l
    induction l with
    | nil => intro acc; simp [joinStrings]
    | cons v vs ih =>
      intro acc
      match v with
      | none => simpa [List.filterMap_cons] using ih acc
      | some s =>
        by_cases hs : s = ""
        · simp only [List.foldl_cons, List.filterMap_cons, id_eq, hs]
          rw [List.filter_cons_of_neg (by simp)]
          simpa using ih acc
        · simp only [List.foldl_cons, List.filterMap_cons, id_eq]
          rw [if_neg hs, ih]
          rw [List.filter_cons_of_pos (by simpa using hs), joinStrings_cons,
            String.append_assoc]
  simpa using h l ""

theorem specRepairBrackets_eq (s : String) : specRepairBrackets s = repairBrackets s := by
  unfold specRepairBrackets repairBrackets
  by_cases h1 : jsStartsWithChar s '[' = true
  · simp only [h1, if_true, String.empty_append]
    by_cases h2 : jsEndsWithChar s ']' = true <;> simp [h2]
  · rcases heq : s.data with _ | ⟨c, cs⟩
    · have hs : s = "" := String.ext (by simp [heq])
      subst hs
      decide
    · have hlast : jsEndsWithChar ("[" ++ s) ']' = jsEndsWithChar s ']' := by
        simp [jsEndsWithChar, String.data_append, heq]
      simp only [h1, if_false, Bool.false_eq_true, hlast]
      by_cases h2 : jsEndsWithChar s ']' = true
      · simp [h2]
      · simp [h2, String.append_assoc]

theorem jsOrStrOpt_getD (o : Option String) : jsOrStrOpt o "" = o.getD "" := by
  cases o with
  | none => rfl
  | some s =>
    by_cases h : s = "" <;> simp [jsOrStrOpt, h]

/-- C3: for every CSV row the parser's options value is computed by
concatenating the option-bearing fields (`options`, `_3`–`_7`) in that fixed
order, dropping falsy entries, stripping all backslashes, trimming
whitespace, prepending `[` when missing and appending `]` when missing, and
JSON-parsing the repaired string as an array of option strings; the row's
answer defaults to the empty string when absent.  Stated as: the source
row-parsing function coincides with the function written from the spec's
words. -/
theorem parseRow_eq_specParseRow (r : CsvRow) : parseRow r = specParseRow r := by
  have harg : specRepairBrackets (jsTrim (removeBackslashes (specConcatOptionFields r)))
      = repairBrackets (combinedOptions r) := by
    rw [specRepairBrackets_eq]
    unfold combinedOptions specConcatOptionFields optionFieldValues
    rw [foldl_concat_eq_join]
  unfold parseRow specParseRow
  rw [harg]
  cases jsonParseStringArray (repairBrackets (combinedOptions r)) with
  | none => rfl
  | some opts => simp [jsOrStrOpt_getD]

/-! ## Concrete sample data used by witnesses -/

/-- A well-formed CSV row with two options. -/
def sampleRowAB : CsvRow :=
  { content := some "Q1", answer := some "A", options := some "[\"A\",\"B\"]",
    f3 := none, f4 := none, f5 := none, f6 := none, f7 := none }

/-- A second well-formed CSV row. -/
def sampleRowC : CsvRow :=
  { content := some "Q2", answer := some "C", options := some "[\"C\"]",
    f3 := none, f4 := none, f5 := none, f6 := none, f7 := none }

/-- A row whose repaired options string is not valid JSON. -/
def sampleBadRow : CsvRow :=
  { content := some "Qx", answer := none, options := some "not json",
    f3 := none, f4 := none, f5 := none, f6 := none, f7 := none }

/-- An empty store that knows course `7`. -/
def sampleStore : Store :=
  { courses := [7], assessments := [], questions := [],
    nextAssessmentId := 1, nextQuestionId := 1 }

/-- A CSV file with two good rows. -/
def sampleFile : UploadedFile := { originalname := "exam.csv", rows := [sampleRowAB, sampleRowC] }

/-- An upload DTO with a valid schedule and `isDraft` not provided. -/
def sampleDto : UploadExamPaperDto :=
  { title := "T", description := "D", courseId := "7", courseUnit := "U",
    courseUnitCode := "UC", duration := 60, scheduledDate := "2025-01-01 00:00:00",
    startTime := "09:00:00", endTime := "11:00:00", createdBy := "lec", isDraft := none }

/-! ## C5 — strict schedule parsing aborts the upload with no state change -/

/-- C5: when the upload reaches the schedule check (the file is a present
`.csv` and some questions parsed) and the scheduled date string does not
strictly parse against `YYYY-MM-DD HH:mm:ss`, the operation fails with the
invalid-schedule-format error and the store is returned unchanged — nothing
is persisted. -/
theorem uploadExamPaper_invalid_schedule_unchanged
    (st : Store) (f : UploadedFile) (dto : UploadExamPaperDto)
    (hcsv : jsEndsWith f.originalname ".csv" = true)
    (hne : parseCsv f.rows ≠ [])
    (hbad : strictParseDateTime dto.scheduledDate = none) :
    uploadExamPaper st (some f) dto
      = (st, .error (.badRequest "Invalid scheduled date format. Use YYYY-MM-DD HH:mm:ss.")) := by
  have h1 : ¬ (¬ jsEndsWith f.originalname ".csv" = true) := by simp [hcsv]
  have h2 : ¬ ((parseCsv f.rows).length = 0) := by
    simpa [List.length_eq_zero] using hne
  simp only [uploadExamPaper, if_neg h1, if_neg h2, hbad]

/-- Witness for C5 at the spec's scenario: date `"2025-13-40"` is rejected
and the store (holding one prior assessment) is unchanged. -/
theorem uploadExamPaper_invalid_schedule_unchanged_witness :
    jsEndsWith sampleFile.originalname ".csv" = true ∧
    parseCsv sampleFile.rows ≠ [] ∧
    strictParseDateTime "2025-13-40" = none ∧
    uploadExamPaper sampleStore (some sampleFile) { sampleDto with scheduledDate := "2025-13-40" }
      = (sampleStore,
         .error (.badRequest "Invalid scheduled date format. Use YYYY-MM-DD HH:mm:ss.")) :=
  ⟨by decide, by decide, by decide,
    uploadExamPaper_invalid_schedule_unchanged sampleStore sampleFile
      { sampleDto with scheduledDate := "2025-13-40" } (by decide) (by decide) (by decide)⟩

/-! ## C4 — bad rows are skipped; `EmptyQuestionSet` iff nothing survives -/

/-- C4: a CSV row whose repaired options string fails to JSON-parse is
skipped and parsing continues with the remaining rows; and (for a present
`.csv` file) the upload fails with the `No valid questions found in CSV`
error exactly when zero rows survive parsing. -/
theorem parseCsv_skips_bad_rows_and_empty_iff
    (st : Store) (f : UploadedFile) (dto : UploadExamPaperDto)
    (row : CsvRow) (rows : List CsvRow)
    (hcsv : jsEndsWith f.originalname ".csv" = true) :
    (parseRow row = none → parseCsv (row :: rows) = parseCsv rows) ∧
    ((uploadExamPaper st (some f) dto).2
        = .error (.badRequest "No valid questions found in CSV")
      ↔ parseCsv f.rows = []) := by
  have h1 : ¬ (¬ jsEndsWith f.originalname ".csv" = true) := by simp [hcsv]
  refine ⟨fun h => by simp [parseCsv, List.filterMap_cons, h], ?_, ?_⟩
  · intro h
    by_contra hne
    have h2 : ¬ ((parseCsv f.rows).length = 0) := by
      simpa [List.length_eq_zero] using hne
    simp only [uploadExamPaper, if_neg h1, if_neg h2] at h
    repeat' split at h
    all_goals simp at h
  · intro h
    simp [uploadExamPaper, h, hcsv]

/-- Witness for C4: a concrete bad row is skipped while good rows survive,
and a file of only bad rows is the exact condition for the empty-set error. -/
theorem parseCsv_skips_bad_rows_and_empty_iff_witness :
    jsEndsWith "bad.csv" ".csv" = true ∧
    (parseRow sampleBadRow = none → parseCsv [sampleBadRow, sampleRowAB] = parseCsv [sampleRowAB]) ∧
    ((uploadExamPaper sampleStore
        (some { originalname := "bad.csv", rows := [sampleBadRow] }) sampleDto).2
      = .error (.badRequest "No valid questions found in CSV")
      ↔ parseCsv [sampleBadRow] = []) :=
  ⟨by decide,
    (parseCsv_skips_bad_rows_and_empty_iff sampleStore
      { originalname := "bad.csv", rows := [sampleBadRow] } sampleDto
      sampleBadRow [sampleRowAB] (by decide)).1,
    (parseCsv_skips_bad_rows_and_empty_iff sampleStore
      { originalname := "bad.csv", rows := [sampleBadRow] } sampleDto
      sampleBadRow [sampleRowAB] (by decide)).2⟩

/-! ## C6 — the persisted `isDraft` when the caller does not provide one -/

/-- C6 (refuting the claimed default of `true`): a successful upload whose
DTO leaves `isDraft` unset persists the assessment with
`isDraft = Boolean(undefined) = false`.  The claim states the created
assessment is persisted with `isDraft = true`; the code evaluates
`Boolean(uploadExamPaperDto.isDraft)` on the absent field instead. -/
theorem uploadExamPaper_isDraft_omitted_is_false :
    sampleDto.isDraft = none ∧
    (uploadExamPaper sampleStore (some sampleFile) sampleDto).2.isOk = true ∧
    ((uploadExamPaper sampleStore (some sampleFile) sampleDto).1.assessments.map
      (fun a => a.isDraft)) = [false] := by
  decide

/-! ## C10 — the `||` fallback swallows every falsy update value -/

theorem jsOrStrOpt_falsy (o : Option String) (d : String)
    (h : o = none ∨ o = some "") : jsOrStrOpt o d = d := by
  rcases h with h | h <;> subst h <;> simp [jsOrStrOpt]

theorem jsOrInt_falsy (o : Option Int) (d : Int)
    (h : o = none ∨ o = some 0) : jsOrInt o d = d := by
  rcases h with h | h <;> subst h <;> simp [jsOrInt]

theorem jsOrInt_eq_zero (o : Option Int) (d : Int) (h : jsOrInt o d = 0) : d = 0 := by
  cases o with
  | none => simpa [jsOrInt] using h
  | some n =>
    by_cases hn : n = 0
    · simpa [jsOrInt, hn] using h
    · rw [jsOrInt, if_neg hn] at h
      exact absurd h hn

theorem jsOrStrOpt_eq_empty (o : Option String) (d : String)
    (h : jsOrStrOpt o d = "") : d = "" := by
  cases o with
  | none => simpa [jsOrStrOpt] using h
  | some s =>
    by_cases hs : s = ""
    · simpa [jsOrStrOpt, hs] using h
    · rw [jsOrStrOpt, if_neg hs] at h
      exact absurd h hs

/-- C10: in a manual-assessment update, every scalar field whose supplied
value is falsy — absent, or the falsy value of its type (`0`, the empty
string) — is replaced by the stored prior value through the `||` fallback,
so a legitimately falsy value (duration `0`, empty description) can never be
set through update. -/
theorem manualUpdate_falsy_keeps_prior
    (st : MStore) (id : Nat) (data : UpdateManualAssessmentDto) (a : ManualAssessment)
    (hfind : st.assessments.find? (fun b => b.id = id) = some a) :
    ((ManualAssessmentService.update st id data).2
        = .ok (ManualAssessmentService.updatedAssessment data a)) ∧
    ((data.title = none ∨ data.title = some "") →
      (ManualAssessmentService.updatedAssessment data a).title = a.title) ∧
    ((data.description = none ∨ data.description = some "") →
      (ManualAssessmentService.updatedAssessment data a).description = a.description) ∧
    ((data.courseId = none ∨ data.courseId = some 0) →
      (ManualAssessmentService.updatedAssessment data a).courseId = a.courseId) ∧
    ((data.courseUnit = none ∨ data.courseUnit = some "") →
      (ManualAssessmentService.updatedAssessment data a).courseUnit = a.courseUnit) ∧
    ((data.courseUnitCode = none ∨ data.courseUnitCode = some "") →
      (ManualAssessmentService.updatedAssessment data a).courseUnitCode = a.courseUnitCode) ∧
    ((data.duration = none ∨ data.duration = some 0) →
      (ManualAssessmentService.updatedAssessment data a).duration = a.duration) ∧
    ((data.scheduledDate = none ∨ data.scheduledDate = some "") →
      (ManualAssessmentService.updatedAssessment data a).scheduledDate = a.scheduledDate) ∧
    ((data.startTime = none ∨ data.startTime = some "") →
      (ManualAssessmentService.updatedAssessment data a).startTime = a.startTime) ∧
    ((data.endTime = none ∨ data.endTime = some "") →
      (ManualAssessmentService.updatedAssessment data a).endTime = a.endTime) ∧
    ((data.createdBy = none ∨ data.createdBy = some "") →
      (ManualAssessmentService.updatedAssessment data a).createdBy = a.createdBy) ∧
    ((ManualAssessmentService.updatedAssessment data a).duration = 0 → a.duration = 0) ∧
    ((ManualAssessmentService.updatedAssessment data a).description = "" →
      a.description = "") := by
  refine ⟨by simp [ManualAssessmentService.update, hfind], ?_, ?_, ?_, ?_, ?_, ?_, ?_, ?_,
    ?_, ?_, ?_, ?_⟩
  · exact fun h => jsOrStrOpt_falsy data.title a.title h
  · exact fun h => jsOrStrOpt_falsy data.description a.description h
  · exact fun h => jsOrInt_falsy data.courseId a.courseId h
  · exact fun h => jsOrStrOpt_falsy data.courseUnit a.courseUnit h
  · exact fun h => jsOrStrOpt_falsy data.courseUnitCode a.courseUnitCode h
  · exact fun h => jsOrInt_falsy data.duration a.duration h
  · exact fun h => jsOrStrOpt_falsy data.scheduledDate a.scheduledDate h
  · exact fun h => jsOrStrOpt_falsy data.startTime a.startTime h
  · exact fun h => jsOrStrOpt_falsy data.endTime a.endTime h
  · exact fun h => jsOrStrOpt_falsy data.createdBy a.createdBy h
  · exact fun h => jsOrInt_eq_zero data.duration a.duration h
  · exact fun h => jsOrStrOpt_eq_empty data.description a.description h

/-- The single assessment row held by `sampleMStore`. -/
def sampleMAssessment : ManualAssessment :=
  { id := 1, title := "MT", description := "MD", courseId := 7,
    courseUnit := "U", courseUnitCode := "UC", duration := 45,
    scheduledDate := "2025-01-01", startTime := "09:00:00", endTime := "10:00:00",
    createdBy := "lec" }

/-- The single pre-existing question row held by `sampleMStore`. -/
def sampleMQuestion : ManualQuestion :=
  { id := 1, assessmentId := 1, questions := "Old",
    options := "[\"O\"]", correctAnswer := "O" }

/-- A manual store holding assessment `1` with one existing question row. -/
def sampleMStore : MStore :=
  { assessments := [sampleMAssessment],
    questions := [sampleMQuestion],
    nextQuestionId := 2 }

/-- An update DTO supplying falsy duration `0` and empty description, and one
replacement question. -/
def sampleMDto : UpdateManualAssessmentDto :=
  { title := none, description := some "", courseId := none, courseUnit := none,
    courseUnitCode := none, duration := some 0, scheduledDate := none,
    startTime := none, endTime := none, createdBy := none,
    questions := some [{ questionText := "New", options := ["X"], correctAnswer := "X" }] }

/-- Witness for C10: duration `0` and the empty description are swallowed by
the fallback — the stored values `45` and `"MD"` survive the update. -/
theorem manualUpdate_falsy_keeps_prior_witness :
    sampleMStore.assessments.find? (fun b => b.id = 1) = some sampleMAssessment ∧
    sampleMDto.duration = some 0 ∧ sampleMDto.description = some "" ∧
    (ManualAssessmentService.updatedAssessment sampleMDto sampleMAssessment).duration = 45 ∧
    (ManualAssessmentService.updatedAssessment sampleMDto sampleMAssessment).description
        = "MD" ∧
    ((ManualAssessmentService.update sampleMStore 1 sampleMDto).2
        = .ok (ManualAssessmentService.updatedAssessment sampleMDto sampleMAssessment)) :=
  ⟨by decide, by decide, by decide, by decide, by decide,
    (manualUpdate_falsy_keeps_prior sampleMStore 1 sampleMDto
      sampleMAssessment (by decide)).1⟩

/-! ## C7 — update creates the supplied question rows, but appends them -/

theorem enum_map_comp_snd {α β : Type} (l : List α) (g : α → β) :
    l.enum.map (fun p => g p.2) = l.map g := by
  have h : (fun p : Nat × α => g p.2) = g ∘ Prod.snd := rfl
  rw [h, ← List.map_map, List.enum_map_snd]

/-- C7 counterexample: after updating assessment `1` (which already owns the
question row `"Old"`) with a list containing only the question `"New"`, the
assessment's question rows are not exactly those derived from the supplied
list — the prior row survives alongside the new one. -/
theorem manualUpdate_not_exactly_supplied :
    ¬ ((((ManualAssessmentService.update sampleMStore 1 sampleMDto).1.questions.filter
          (fun q => q.assessmentId = 1)).map
        (fun q => (q.questions, q.options, q.correctAnswer)))
        = ManualAssessmentService.mappedQuestions sampleMDto) := by
  decide

/-- C7 (amended): updating an existing manual assessment creates the question
rows derived from the supplied list (`{questions, options: stringified,
correctAnswer}` each) and appends them to the previously stored rows; the
prior rows are not removed. -/
theorem manualUpdate_appends_supplied
    (st : MStore) (id : Nat) (data : UpdateManualAssessmentDto) (a : ManualAssessment)
    (hfind : st.assessments.find? (fun b => b.id = id) = some a) :
    ((ManualAssessmentService.update st id data).1.questions.map
        (fun q => (q.assessmentId, q.questions, q.options, q.correctAnswer)))
      = st.questions.map (fun q => (q.assessmentId, q.questions, q.options, q.correctAnswer))
        ++ (ManualAssessmentService.mappedQuestions data).map (fun t => (id, t)) := by
  simp only [ManualAssessmentService.update, hfind, List.map_append, List.map_map]
  congr 1
  exact enum_map_comp_snd (ManualAssessmentService.mappedQuestions data)
    (fun t => (id, t))

/-- Witness for C7's amended statement at the concrete store: the projected
rows after the update are the old row followed by the row derived from the
supplied list. -/
theorem manualUpdate_appends_supplied_witness :
    sampleMStore.assessments.find? (fun b => b.id = 1) = some sampleMAssessment ∧
    ((ManualAssessmentService.update sampleMStore 1 sampleMDto).1.questions.map
        (fun q => (q.assessmentId, q.questions, q.options, q.correctAnswer)))
      = sampleMStore.questions.map
          (fun q => (q.assessmentId, q.questions, q.options, q.correctAnswer))
        ++ (ManualAssessmentService.mappedQuestions sampleMDto).map (fun t => (1, t)) :=
  ⟨by decide,
    manualUpdate_appends_supplied sampleMStore 1 sampleMDto sampleMAssessment (by decide)⟩

/-! ## C9 — publishing is idempotent -/

theorem find?_map_of_pred_eq {α : Type} (f : α → α) (p : α → Bool)
    (hp : ∀ x, p (f x) = p x) (l : List α) :
    (l.map f).find? p = (l.find? p).map f := by
  induction l with
  | nil => rfl
  | cons x xs ih =>
    by_cases hx : p x = true
    · rw [List.map_cons, List.find?_cons_of_pos _ ((hp x).trans hx),
        List.find?_cons_of_pos _ hx, Option.map_some']
    · have hx' : p x = false := by simpa using hx
      rw [List.map_cons, List.find?_cons_of_neg _ (by simp [hp, hx']),
        List.find?_cons_of_neg _ (by simp [hx']), ih]

/-- Overwriting `isDraft` with `false` on an already-published row is the
identity. -/
theorem setDraftFalse_eq_self (a : Assessment) (h : a.isDraft = false) :
    { a with isDraft := false } = a := by
  cases a
  simp_all

/-- C9: `publishExamPaper` sets `isDraft := false` on the addressed
assessment, and it is idempotent — running it again returns the same store
and the same assessment, and on an already-published assessment it is a
no-op success returning the assessment unchanged, not an error. -/
theorem publishExamPaper_idempotent
    (st : Store) (id : Nat) (a : Assessment)
    (hnd : (st.assessments.map (fun b => b.id)).Nodup)
    (hfind : st.assessments.find? (fun b => b.id = id) = some a) :
    ((publishExamPaper st id).2 = .ok { a with isDraft := false }) ∧
    (∀ b ∈ (publishExamPaper st id).1.assessments, b.id = id → b.isDraft = false) ∧
    (publishExamPaper (publishExamPaper st id).1 id
        = ((publishExamPaper st id).1, .ok { a with isDraft := false })) ∧
    (a.isDraft = false → publishExamPaper st id = (st, .ok a)) := by
  have haid : a.id = id := by simpa using List.find?_some hfind
  have hrow_id : ∀ x : Assessment, (publishAssessmentRow id x).id = x.id := by
    intro x
    unfold publishAssessmentRow
    split <;> rfl
  have hrow_idem : ∀ x : Assessment,
      publishAssessmentRow id (publishAssessmentRow id x) = publishAssessmentRow id x := by
    intro x
    unfold publishAssessmentRow
    by_cases hx : x.id = id <;> simp [hx]
  have hrow_a : publishAssessmentRow id a = { a with isDraft := false } := by
    simp [publishAssessmentRow, haid]
  have hfind2 : ((st.assessments.map (publishAssessmentRow id)).find?
      (fun b => b.id = id)) = some (publishAssessmentRow id a) := by
    rw [find?_map_of_pred_eq (publishAssessmentRow id) (fun b => decide (b.id = id))
      (fun x => by simp [hrow_id]) st.assessments, hfind, Option.map_some']
  have hpub1 : publishExamPaper st id
      = ({ st with assessments := st.assessments.map (publishAssessmentRow id) },
         .ok { a with isDraft := false }) := by
    simp [publishExamPaper, hfind]
  refine ⟨by rw [hpub1], ?_, ?_, ?_⟩
  · intro b hb hbid
    rw [hpub1] at hb
    rcases List.mem_map.mp hb with ⟨c, hc, hcb⟩
    by_cases hcid : c.id = id
    · rw [← hcb]
      simp [publishAssessmentRow, hcid]
    · rw [← hcb] at hbid
      rw [hrow_id c] at hbid
      exact absurd hbid hcid
  · rw [hpub1]
    simp only [publishExamPaper, hfind2]
    rw [List.map_map]
    rw [show List.map (publishAssessmentRow id ∘ publishAssessmentRow id) st.assessments
        = List.map (publishAssessmentRow id) st.assessments from
      List.map_congr_left (fun x _ => hrow_idem x)]
    rw [hrow_a]
  · intro hdraft
    have hrow_all : ∀ x ∈ st.assessments, publishAssessmentRow id x = x := by
      intro x hx
      unfold publishAssessmentRow
      split
      · next hxid =>
        have hxa : x = a :=
          List.inj_on_of_nodup_map hnd hx (List.mem_of_find?_eq_some hfind)
            (by rw [hxid, haid])
        rw [hxa]
        exact setDraftFalse_eq_self a hdraft
      · rfl
    have hmap : st.assessments.map (publishAssessmentRow id) = st.assessments := by
      rw [List.map_congr_left hrow_all]
      exact List.map_id st.assessments
    rw [hpub1, hmap, setDraftFalse_eq_self a hdraft]

/-- A store holding one published and one draft assessment, for the C9
witness. -/
def samplePubAssessment : Assessment :=
  { id := 3, title := "T3", description := "D3", courseId := 7,
    courseUnit := "U", courseUnitCode := "UC", duration := 60,
    scheduledDate := ⟨2025, 1, 1, 0, 0, 0⟩, startTime := ⟨2025, 1, 1, 9, 0, 0⟩,
    endTime := ⟨2025, 1, 1, 11, 0, 0⟩, createdBy := "lec", isDraft := false }

def samplePubStore : Store :=
  { courses := [7], assessments := [samplePubAssessment],
    questions := [], nextAssessmentId := 4, nextQuestionId := 1 }

/-- Witness for C9: publishing the already-published assessment `3` returns
the store unchanged and the assessment itself. -/
theorem publishExamPaper_idempotent_witness :
    (samplePubStore.assessments.map (fun b => b.id)).Nodup ∧
    samplePubStore.assessments.find? (fun b => b.id = 3) = some samplePubAssessment ∧
    samplePubAssessment.isDraft = false ∧
    publishExamPaper samplePubStore 3 = (samplePubStore, .ok samplePubAssessment) :=
  ⟨by decide, by decide, by decide,
    (publishExamPaper_idempotent samplePubStore 3 samplePubAssessment
      (by decide) (by decide)).2.2.2 (by decide)⟩

/-! ## C8 — the no-answer view cannot leak answers -/

/-- Blank out a question's answer, keeping every other field. -/
def eraseAnswer (q : Question) : Question := { q with answer := "" }

theorem dropAnswer_eraseAnswer (q : Question) :
    dropAnswer (eraseAnswer q) = dropAnswer q := rfl

theorem filter_aid_map_eraseAnswer (l : List Question) (aid : Nat) :
    (l.map eraseAnswer).filter (fun q => q.assessmentId = aid)
      = (l.filter (fun q => q.assessmentId = aid)).map eraseAnswer := by
  rw [List.filter_map]
  congr 1

theorem sortByNumber_map_eraseAnswer (l : List Question) :
    sortByNumber (l.map eraseAnswer) = (sortByNumber l).map eraseAnswer := by
  unfold sortByNumber
  exact (List.map_insertionSort byNumber byNumber eraseAnswer l
    (fun a _ b _ => Iff.rfl)).symm

/-- The student-facing view of a store, computed from the answer-blanked
question table. -/
theorem allQuestionsNoAnswer_factor (s : Store) (aid : Nat) :
    allQuestionsNoAnswer s aid
      = (let qs := sortByNumber ((s.questions.map eraseAnswer).filter
            (fun q => q.assessmentId = aid));
         if qs.length = 0 then
           Except.error (.notFound "No questions found for this assessment")
         else .ok (qs.map dropAnswer)) := by
  unfold allQuestionsNoAnswer questionsOf
  rw [filter_aid_map_eraseAnswer, sortByNumber_map_eraseAnswer]
  simp only [List.length_map, List.map_map]
  rfl

/-- C8: `allQuestionsNoAnswer` never exposes an `answer` — its output type
carries no answer field, and its result is identical for any two stores whose
question tables agree after blanking every stored answer (in particular for
two question sets differing only in their answers). -/
theorem allQuestionsNoAnswer_independent_of_answers
    (s1 s2 : Store) (aid : Nat)
    (h : s1.questions.map eraseAnswer = s2.questions.map eraseAnswer) :
    allQuestionsNoAnswer s1 aid = allQuestionsNoAnswer s2 aid := by
  rw [allQuestionsNoAnswer_factor s1 aid, allQuestionsNoAnswer_factor s2 aid, h]

/-- Two stores identical except for the stored answers, for the C8 witness. -/
def sampleAnswerQ : Question :=
  { id := 21, assessmentId := 5, questionNumber := 1, content := some "Q",
    options := ["A", "B"], answer := "A" }

def sampleLeakStore1 : Store :=
  { courses := [7], assessments := [], questions := [sampleAnswerQ],
    nextAssessmentId := 1, nextQuestionId := 22 }

def sampleLeakStore2 : Store :=
  { courses := [7], assessments := [],
    questions := [{ sampleAnswerQ with answer := "B" }],
    nextAssessmentId := 1, nextQuestionId := 22 }

/-- Witness for C8: the two stores differ only in the stored answer, and the
student-facing view is identical on them. -/
theorem allQuestionsNoAnswer_independent_of_answers_witness :
    sampleLeakStore1.questions.map eraseAnswer
        = sampleLeakStore2.questions.map eraseAnswer ∧
    sampleLeakStore1.questions ≠ sampleLeakStore2.questions ∧
    allQuestionsNoAnswer sampleLeakStore1 5 = allQuestionsNoAnswer sampleLeakStore2 5 :=
  ⟨by decide, by decide,
    allQuestionsNoAnswer_independent_of_answers sampleLeakStore1 sampleLeakStore2 5
      (by decide)⟩

/-! ## C2 — a successful upload numbers its questions 1..N in parsed order -/

theorem enum_map_fst_succ {α : Type} (l : List α) :
    l.enum.map (fun p => p.1 + 1) = List.range' 1 l.length := by
  have h1 : (fun p : Nat × α => p.1 + 1) = (fun n => n + 1) ∘ Prod.fst := rfl
  rw [h1, ← List.map_map, List.enum_map_fst, List.range'_eq_map_range]
  exact List.map_congr_left (fun x _ => Nat.add_comm x 1)

/-- C2: every successful upload creates, for the new assessment, questions
whose `questionNumber`s are exactly `1..N` (`N` the number of parsed rows),
assigned as `index + 1` in parsed-row order — the second conjunct ties the
`i`-th created question to the `i`-th parsed record, so the numbering is
independent of anything in the input file. -/
theorem uploadExamPaper_question_numbers
    (st : Store) (f : UploadedFile) (dto : UploadExamPaperDto) (r : UploadResult)
    (hfresh : ∀ q ∈ st.questions, q.assessmentId ≠ st.nextAssessmentId)
    (hok : (uploadExamPaper st (some f) dto).2 = .ok r) :
    ((questionsOf (uploadExamPaper st (some f) dto).1 st.nextAssessmentId).map
        (fun q => q.questionNumber)) = List.range' 1 (parseCsv f.rows).length ∧
    ((questionsOf (uploadExamPaper st (some f) dto).1 st.nextAssessmentId).map
        (fun q => (q.content, q.options)))
      = (parseCsv f.rows).map (fun p => (p.content, p.options)) := by
  simp only [uploadExamPaper] at hok ⊢
  by_cases h1 : jsEndsWith f.originalname ".csv" = true
  case neg =>
    rw [if_pos (by simpa using h1)] at hok
    simp at hok
  rw [if_neg (by simpa using h1)] at hok ⊢
  by_cases h2 : (parseCsv f.rows).length = 0
  case pos =>
    rw [if_pos h2] at hok
    simp at hok
  rw [if_neg h2] at hok ⊢
  obtain ⟨sched, hd⟩ : ∃ sched, strictParseDateTime dto.scheduledDate = some sched := by
    rcases hds : strictParseDateTime dto.scheduledDate with _ | s
    · rw [hds] at hok
      simp at hok
    · exact ⟨s, rfl⟩
  simp only [hd] at hok ⊢
  by_cases h3 : ((jsSplitOnChar dto.startTime ':').map jsNumber).length = 3 ∧
      ((jsSplitOnChar dto.endTime ':').map jsNumber).length = 3
  case neg =>
    rw [if_pos h3] at hok
    simp at hok
  rw [if_neg (not_not_intro h3)] at hok ⊢
  split at hok
  next u1 u2 u3 v1 v2 v3 heqS heqE =>
    obtain ⟨cid, hci⟩ : ∃ cid, parseIntJS dto.courseId = some cid := by
      rcases hcis : parseIntJS dto.courseId with _ | c
      · rw [hcis] at hok
        simp at hok
      · exact ⟨c, rfl⟩
    simp only [hci] at hok ⊢
    by_cases hmem : cid ∈ st.courses
    case neg =>
      rw [if_neg hmem] at hok
      simp at hok
    rw [if_pos hmem]
    simp only [questionsOf, List.filter_append]
    have hold : st.questions.filter
        (fun q => q.assessmentId = st.nextAssessmentId) = [] :=
      List.filter_eq_nil_iff.mpr (fun q hq => by simpa using hfresh q hq)
    have hnew : ((parseCsv f.rows).enum.map (fun p =>
        ({ id := st.nextQuestionId + p.1, assessmentId := st.nextAssessmentId,
           questionNumber := p.1 + 1, content := p.2.content,
           options := p.2.options, answer := jsOrStr p.2.answer "" } : Question))).filter
          (fun q => q.assessmentId = st.nextAssessmentId)
        = (parseCsv f.rows).enum.map (fun p =>
          ({ id := st.nextQuestionId + p.1, assessmentId := st.nextAssessmentId,
             questionNumber := p.1 + 1, content := p.2.content,
             options := p.2.options, answer := jsOrStr p.2.answer "" } : Question)) := by
      refine List.filter_eq_self.mpr (fun q hq => ?_)
      rcases List.mem_map.mp hq with ⟨p, _, hpq⟩
      rw [← hpq]
      simp
    rw [hold, hnew, List.nil_append, List.map_map, List.map_map]
    constructor
    · exact enum_map_fst_succ (parseCsv f.rows)
    · exact enum_map_comp_snd (parseCsv f.rows) (fun p => (p.content, p.options))
  next =>
    simp at hok

/-- Witness for C2 at the concrete two-row upload: the created questions are
numbered `1, 2` and carry the parsed rows in order. -/
theorem uploadExamPaper_question_numbers_witness :
    (∀ q ∈ sampleStore.questions, q.assessmentId ≠ sampleStore.nextAssessmentId) ∧
    ((questionsOf (uploadExamPaper sampleStore (some sampleFile) sampleDto).1
        sampleStore.nextAssessmentId).map (fun q => q.questionNumber))
      = List.range' 1 (parseCsv sampleFile.rows).length :=
  ⟨fun q hq => absurd hq (List.not_mem_nil q),
    (uploadExamPaper_question_numbers sampleStore sampleFile sampleDto
      ((uploadExamPaper sampleStore (some sampleFile) sampleDto).2.toOption.get (by decide))
      (fun q hq => absurd hq (List.not_mem_nil q))
      (by decide)).1⟩

/-! ## C1 — deletion renumbers the survivors densely, preserving order -/

/-- The renumbering assignment: the `i`-th survivor (in prior-number order)
receives question number `i + 1`. -/
def renumber (l : List Question) : List Question :=
  l.enum.map (fun p => { p.2 with questionNumber := p.1 + 1 })

/-- The cumulative effect on one row of the sequence of per-question prisma
updates issued by the renumbering loop. -/
def applyUpdates (l : List (Nat × Question)) (q : Question) : Question :=
  l.foldl (fun q p => if q.id = p.2.id then { q with questionNumber := p.1 + 1 } else q) q

theorem applyUpdates_cons (p : Nat × Question) (t : List (Nat × Question)) (q : Question) :
    applyUpdates (p :: t) q
      = applyUpdates t (if q.id = p.2.id then { q with questionNumber := p.1 + 1 } else q) :=
  rfl

theorem foldl_updateQuestionNumber (l : List (Nat × Question)) (st : Store) :
    l.foldl (fun acc p => updateQuestionNumberById acc p.2.id (p.1 + 1)) st
      = { st with questions := st.questions.map (applyUpdates l) } := by
  induction l generalizing st with
  | nil =>
    simp only [List.foldl_nil]
    have h : st.questions.map (applyUpdates []) = st.questions := List.map_id st.questions
    rw [h]
  | cons p t ih =>
    rw [List.foldl_cons, ih]
    simp only [updateQuestionNumberById, List.map_map]
    rfl

theorem applyUpdates_of_not_mem (l : List (Nat × Question)) (q : Question)
    (h : ∀ p ∈ l, ¬ q.id = p.2.id) : applyUpdates l q = q := by
  induction l with
  | nil => rfl
  | cons p t ih =>
    rw [applyUpdates_cons, if_neg (h p (List.mem_cons_self p t))]
    exact ih (fun x hx => h x (List.mem_cons_of_mem p hx))

theorem applyUpdates_fields (l : List (Nat × Question)) (q : Question) :
    (applyUpdates l q).id = q.id ∧ (applyUpdates l q).assessmentId = q.assessmentId := by
  induction l generalizing q with
  | nil => exact ⟨rfl, rfl⟩
  | cons p t ih =>
    rw [applyUpdates_cons]
    by_cases hq : q.id = p.2.id
    · rw [if_pos hq]
      simpa using ih { q with questionNumber := p.1 + 1 }
    · rw [if_neg hq]
      exact ih q

theorem snd_mem_of_mem_enumFrom {α : Type} {p : Nat × α} :
    ∀ {k : Nat} {l : List α}, p ∈ l.enumFrom k → p.2 ∈ l := by
  intro k l
  induction l generalizing k with
  | nil => intro h; cases h
  | cons x t ih =>
    intro h
    rw [List.enumFrom_cons] at h
    rcases List.mem_cons.mp h with h | h
    · rw [h]
      exact List.mem_cons_self x t
    · exact List.mem_cons_of_mem x (ih h)

theorem map_applyUpdates_enumFrom :
    ∀ (r : List Question) (k : Nat), ((r.map (fun q => q.id)).Nodup) →
    r.map (applyUpdates (r.enumFrom k))
      = (r.enumFrom k).map (fun p => { p.2 with questionNumber := p.1 + 1 }) := by
  intro r
  induction r with
  | nil => intro k _; rfl
  | cons q t ih =>
    intro k nd
    rw [List.map_cons, List.nodup_cons] at nd
    have hqt : ∀ x ∈ t, ¬ q.id = x.id := by
      intro x hx heq
      exact nd.1 (List.mem_map.mpr ⟨x, hx, heq.symm⟩)
    rw [List.enumFrom_cons, List.map_cons, List.map_cons]
    congr 1
    · rw [applyUpdates_cons, if_pos rfl]
      refine applyUpdates_of_not_mem _ _ (fun p hp => ?_)
      exact hqt p.2 (snd_mem_of_mem_enumFrom hp)
    · rw [List.map_congr_left (fun x hx => by
        rw [applyUpdates_cons,
          if_neg (fun hxe => hqt x hx hxe.symm)])]
      exact ih (k + 1) nd.2

theorem renumber_map_questionNumber (l : List Question) :
    (renumber l).map (fun q => q.questionNumber) = List.range' 1 l.length := by
  unfold renumber
  rw [List.map_map]
  exact enum_map_fst_succ l

theorem renumber_length (l : List Question) : (renumber l).length = l.length := by
  unfold renumber
  rw [List.length_map, List.enum_length]

theorem renumber_pairwise_lt (l : List Question) :
    (renumber l).Pairwise (fun a b => a.questionNumber < b.questionNumber) := by
  have h : ((renumber l).map (fun q => q.questionNumber)).Pairwise (· < ·) := by
    rw [renumber_map_questionNumber]
    exact List.pairwise_lt_range' 1 l.length
  exact List.pairwise_map.mp h

theorem eq_of_perm_of_sorted_nodup_numbers (l1 l2 : List Question)
    (hp : l1.Perm l2)
    (hs1 : l1.Pairwise byNumber)
    (hs2 : l2.Pairwise (fun a b => a.questionNumber < b.questionNumber)) :
    l1 = l2 := by
  haveI : IsAntisymm Question (fun a b => a.questionNumber < b.questionNumber) :=
    ⟨fun a b h1 h2 => absurd (Nat.lt_trans h1 h2) (Nat.lt_irrefl _)⟩
  refine List.eq_of_perm_of_sorted hp ?_ hs2
  have hnod2 : (l2.map (fun q => q.questionNumber)).Nodup :=
    List.Pairwise.map (fun q : Question => q.questionNumber)
      (fun _ _ (h : _ ≠ _) => h) (hs2.imp (fun h => Nat.ne_of_lt h))
  have hnod1 : (l1.map (fun q => q.questionNumber)).Nodup :=
    ((hp.map (fun q => q.questionNumber)).nodup_iff).mpr hnod2
  have hne : l1.Pairwise (fun a b => a.questionNumber ≠ b.questionNumber) :=
    List.pairwise_map.mp hnod1
  exact (hs1.and hne).imp (fun h => Nat.lt_of_le_of_ne h.1 h.2)

theorem filter_ne_length_of_nodup (qid : Nat) :
    ∀ (l : List Question), ((l.map (fun q => q.id)).Nodup) →
    ∀ x ∈ l, x.id = qid →
    (l.filter (fun q => ¬ q.id = qid)).length = l.length - 1 := by
  intro l
  induction l with
  | nil => intro _ x hx; cases hx
  | cons y t ih =>
    intro nd x hx hxid
    rw [List.map_cons, List.nodup_cons] at nd
    by_cases hy : y.id = qid
    · rw [List.filter_cons_of_neg (by simp [hy])]
      rw [List.filter_eq_self.mpr (fun z hz => by
        simp only [decide_eq_true_eq, decide_not, Bool.not_eq_true', decide_eq_false_iff_not]
        intro hzz
        exact nd.1 (List.mem_map.mpr ⟨z, hz, by rw [hzz, hy]⟩))]
      simp
    · have hxt : x ∈ t := by
        rcases List.mem_cons.mp hx with h | h
        · exact absurd (h ▸ hxid) hy
        · exact h
      have hlen : 1 ≤ t.length := by
        rcases t with _ | _
        · cases hxt
        · simp
      rw [List.filter_cons_of_pos (by simp [hy]), List.length_cons,
        ih nd.2 x hxt hxid, List.length_cons]
      omega

theorem filter_map_applyUpdates (A : List (Nat × Question)) (l : List Question) (aid : Nat) :
    (l.map (applyUpdates A)).filter (fun q => q.assessmentId = aid)
      = (l.filter (fun q => q.assessmentId = aid)).map (applyUpdates A) := by
  rw [List.filter_map]
  congr 1
  exact List.filter_congr (fun x _ => by
    simp [(applyUpdates_fields A x).2])

theorem filter_swap {α : Type} (l : List α) (p q : α → Bool) :
    (l.filter p).filter q = (l.filter q).filter p := by
  rw [List.filter_filter, List.filter_filter]
  exact List.filter_congr (fun a _ => Bool.and_comm _ _)

/-- C1: deleting an existing question from an existing assessment with `N`
questions (row ids unique, as the primary key guarantees) succeeds and leaves
exactly `N - 1` questions for that assessment, whose `questionNumber`s are
exactly `1..N-1`; read back ordered by number they are precisely the
survivors in their prior `questionNumber` order, renumbered positionally, so
the relative order of survivors is preserved and the dense numbering
invariant holds after every delete. -/
theorem deleteQuestionById_renumbers
    (st : Store) (questionId examPaperId : Nat)
    (hnd : (st.questions.map (fun q => q.id)).Nodup)
    (ha : ∃ a ∈ st.assessments, a.id = examPaperId)
    (hq : ∃ q ∈ st.questions, q.id = questionId ∧ q.assessmentId = examPaperId) :
    ((deleteQuestionById st questionId examPaperId).2
        = .ok "Question deleted successfully and questions renumbered") ∧
    ((sortByNumber (questionsOf (deleteQuestionById st questionId examPaperId).1
        examPaperId)).length = (questionsOf st examPaperId).length - 1) ∧
    ((sortByNumber (questionsOf (deleteQuestionById st questionId examPaperId).1
        examPaperId)).map (fun q => q.questionNumber)
      = List.range' 1 ((questionsOf st examPaperId).length - 1)) ∧
    (sortByNumber (questionsOf (deleteQuestionById st questionId examPaperId).1
        examPaperId)
      = renumber ((sortByNumber (questionsOf st examPaperId)).filter
          (fun q => ¬ q.id = questionId))) := by
  obtain ⟨a0, ha0, haid⟩ := ha
  obtain ⟨q0, hq0mem, hq0id, hq0aid⟩ := hq
  -- the two lookups succeed
  obtain ⟨b0, hb0⟩ : ∃ b, st.assessments.find? (fun a => a.id = examPaperId) = some b :=
    Option.isSome_iff_exists.mp
      (List.find?_isSome.mpr ⟨a0, ha0, by simpa using haid⟩)
  have hq0filter : q0 ∈ questionsOf st examPaperId := by
    unfold questionsOf
    exact List.mem_filter.mpr ⟨hq0mem, by simpa using hq0aid⟩
  have hq0fetched : q0 ∈ sortByNumber (questionsOf st examPaperId) := by
    unfold sortByNumber
    exact (List.mem_insertionSort byNumber).mpr hq0filter
  obtain ⟨c0, hc0⟩ : ∃ c, (sortByNumber (questionsOf st examPaperId)).find?
      (fun q => q.id = questionId) = some c :=
    Option.isSome_iff_exists.mp
      (List.find?_isSome.mpr ⟨q0, hq0fetched, by simpa using hq0id⟩)
  -- sortedness and id-uniqueness of the fetched snapshot and its survivors
  have hsorted_f : (sortByNumber (questionsOf st examPaperId)).Pairwise byNumber :=
    List.sorted_insertionSort byNumber _
  have hsorted_s : ((sortByNumber (questionsOf st examPaperId)).filter
      (fun q => ¬ q.id = questionId)).Pairwise byNumber :=
    hsorted_f.filter _
  have hrem : ((sortByNumber (questionsOf st examPaperId)).filter
        (fun q => ¬ q.id = questionId)).insertionSort byNumber
      = (sortByNumber (questionsOf st examPaperId)).filter
        (fun q => ¬ q.id = questionId) :=
    List.Sorted.insertionSort_eq hsorted_s
  have hnd_filter : ((questionsOf st examPaperId).map (fun q => q.id)).Nodup := by
    unfold questionsOf
    exact ((List.filter_sublist st.questions).map (fun q : Question => q.id)).nodup hnd
  have hnd_f : ((sortByNumber (questionsOf st examPaperId)).map
      (fun q => q.id)).Nodup := by
    unfold sortByNumber
    exact (((List.perm_insertionSort byNumber (questionsOf st examPaperId)).map
      (fun q => q.id)).nodup_iff).mpr hnd_filter
  have hnd_s : (((sortByNumber (questionsOf st examPaperId)).filter
      (fun q => ¬ q.id = questionId)).map (fun q => q.id)).Nodup :=
    ((List.filter_sublist _).map (fun q : Question => q.id)).nodup hnd_f
  -- name the survivors and the final filtered question table
  set survivors := (sortByNumber (questionsOf st examPaperId)).filter
    (fun q => ¬ q.id = questionId) with hsurvivors
  -- reduce the service call
  simp only [deleteQuestionById, hb0, hc0, hrem, foldl_updateQuestionNumber]
  refine ⟨trivial, ?_⟩
  -- the final question rows of this assessment, in store order
  have hstore : questionsOf
      { st with questions := (st.questions.filter
          (fun q => ¬ q.id = questionId)).map (applyUpdates survivors.enum) }
        examPaperId
      = ((questionsOf st examPaperId).filter
          (fun q => ¬ q.id = questionId)).map (applyUpdates survivors.enum) := by
    unfold questionsOf
    rw [filter_map_applyUpdates, filter_swap]
  -- the mapped survivors coincide with the renumbering
  have hmapped : survivors.map (applyUpdates survivors.enum) = renumber survivors :=
    map_applyUpdates_enumFrom survivors 0 hnd_s
  -- store-order survivors are a permutation of the snapshot survivors
  have hperm1 : List.Perm
      ((questionsOf st examPaperId).filter (fun q => ¬ q.id = questionId))
      survivors := by
    rw [hsurvivors]
    exact ((List.perm_insertionSort byNumber (questionsOf st examPaperId)).filter
      (fun q => ¬ q.id = questionId)).symm
  have hperm2 : List.Perm
      (((questionsOf st examPaperId).filter
        (fun q => ¬ q.id = questionId)).map (applyUpdates survivors.enum))
      (renumber survivors) := by
    rw [← hmapped]
    exact hperm1.map (applyUpdates survivors.enum)
  -- sorting the final rows by number gives exactly the renumbered survivors
  have hmain : sortByNumber (((questionsOf st examPaperId).filter
        (fun q => ¬ q.id = questionId)).map (applyUpdates survivors.enum))
      = renumber survivors := by
    refine eq_of_perm_of_sorted_nodup_numbers _ _ ?_ ?_ (renumber_pairwise_lt survivors)
    · exact (List.perm_insertionSort byNumber _).trans hperm2
    · exact List.sorted_insertionSort byNumber _
  -- survivor count
  have hc0id : c0.id = questionId := by simpa using List.find?_some hc0
  have hlen_s : survivors.length = (questionsOf st examPaperId).length - 1 := by
    rw [hsurvivors]
    rw [filter_ne_length_of_nodup questionId _ hnd_f c0
      (List.mem_of_find?_eq_some hc0) hc0id]
    unfold sortByNumber
    rw [List.length_insertionSort]
  rw [hstore, hmain]
  refine ⟨?_, ?_, rfl⟩
  · rw [renumber_length, hlen_s]
  · rw [renumber_map_questionNumber, hlen_s]

/-- A store with one assessment owning three questions numbered 1, 2, 3, for
the C1 witness (the spec's delete-question scenario). -/
def sampleDelQ1 : Question :=
  { id := 11, assessmentId := 3, questionNumber := 1, content := some "one",
    options := ["A"], answer := "A" }

def sampleDelQ2 : Question :=
  { id := 12, assessmentId := 3, questionNumber := 2, content := some "two",
    options := ["B"], answer := "B" }

def sampleDelQ3 : Question :=
  { id := 13, assessmentId := 3, questionNumber := 3, content := some "three",
    options := ["C"], answer := "C" }

def sampleDelStore : Store :=
  { courses := [7], assessments := [samplePubAssessment],
    questions := [sampleDelQ1, sampleDelQ2, sampleDelQ3],
    nextAssessmentId := 4, nextQuestionId := 14 }

/-- Witness for C1 at the spec's scenario: deleting question #2 of three
leaves questions #1 and #3 renumbered to 1, 2 with contents preserved in
order. -/
theorem deleteQuestionById_renumbers_witness :
    (sampleDelStore.questions.map (fun q => q.id)).Nodup ∧
    (∃ a ∈ sampleDelStore.assessments, a.id = 3) ∧
    (∃ q ∈ sampleDelStore.questions, q.id = 12 ∧ q.assessmentId = 3) ∧
    (sortByNumber (questionsOf (deleteQuestionById sampleDelStore 12 3).1 3)).map
        (fun q => q.questionNumber)
      = List.range' 1 ((questionsOf sampleDelStore 3).length - 1) :=
  ⟨by decide, by decide, by decide,
    (deleteQuestionById_renumbers sampleDelStore 12 3
      (by decide) (by decide) (by decide)).2.2.1⟩

end CIU
